import Mathlib

/-!
Shallow embedding of the `httptester` Go package (request.go, response.go):
a fluent HTTP request builder (`ReqBuilder`) and response assertion wrapper
(`Response`).  Go strings are modelled as Lean `String` except where the
byte/character distinction matters (response bodies, `bodyExcerpt`), which
are modelled as `List Nat` (byte values).  External collaborators
(`url.Parse`, `http.NewRequestWithContext`, `http.Client.Do`, the JSON/XML
codecs, `io.ReadAll`) are modelled as oracles: their outcomes are passed in
as explicit `Except`/`Option` arguments.  The injected error sink
(`onError`) is modelled by accumulating the reported errors in a list.
-/

namespace HTTPTester

/-- Byte strings: Go `[]byte` / the byte content of a Go string. -/
abbrev Bytes := List Nat

/-- Model of `url.Values` / the underlying `map[string][]string`:
an association list from key to the list of values.  Keys are kept unique
by the operations below, mirroring Go map semantics. -/
abbrev Values := List (String × List String)

/-- `url.Values.Set`: replaces the values stored under `k` with the single
value `v` (`v[key] = []string{value}`). -/
def vset : Values → String → String → Values
  | [], k, v => [(k, [v])]
  | (k₀, vs) :: rest, k, v =>
    if k₀ = k then (k₀, [v]) :: rest else (k₀, vs) :: vset rest k v

/-- `url.Values.Add`: appends `v` to the values stored under `k`
(`v[key] = append(v[key], value)`). -/
def vadd : Values → String → String → Values
  | [], k, v => [(k, [v])]
  | (k₀, vs) :: rest, k, v =>
    if k₀ = k then (k₀, vs ++ [v]) :: rest else (k₀, vs) :: vadd rest k v

/-- The value list stored under key `k` (`v[key]`; nil slice for an absent
key is modelled as `[]`). -/
def vget : Values → String → List String
  | [], _ => []
  | (k₀, vs) :: rest, k => if k₀ = k then vs else vget rest k

theorem vget_vset_self (q : Values) (k v : String) : vget (vset q k v) k = [v] := by
  induction q with
  | nil => simp [vset, vget]
  | cons p rest ih =>
    obtain ⟨k₀, vs⟩ := p
    by_cases h : k₀ = k <;> simp [vset, vget, h, ih]

theorem vget_vset_ne (q : Values) (k v : String) (k₁ : String) (hne : k₁ ≠ k) :
    vget (vset q k v) k₁ = vget q k₁ := by
  have hkk : k ≠ k₁ := Ne.symm hne
  induction q with
  | nil => simp [vset, vget, hkk]
  | cons p rest ih =>
    obtain ⟨k₀, vs⟩ := p
    by_cases h : k₀ = k
    · subst h
      simp [vset, vget, hkk]
    · simp [vset, vget, h, ih]

theorem vget_vadd_self (q : Values) (k v : String) :
    vget (vadd q k v) k = vget q k ++ [v] := by
  induction q with
  | nil => simp [vadd, vget]
  | cons p rest ih =>
    obtain ⟨k₀, vs⟩ := p
    by_cases h : k₀ = k <;> simp [vadd, vget, h, ih]

theorem vget_vadd_ne (q : Values) (k v : String) (k₁ : String) (hne : k₁ ≠ k) :
    vget (vadd q k v) k₁ = vget q k₁ := by
  have hkk : k ≠ k₁ := Ne.symm hne
  induction q with
  | nil => simp [vadd, vget, hkk]
  | cons p rest ih =>
    obtain ⟨k₀, vs⟩ := p
    by_cases h : k₀ = k
    · subst h
      simp [vadd, vget, hkk]
    · simp [vadd, vget, h, ih]

/-- The `for i := 0; i < len(args)/2; i++` loops over `args[i*2]`,
`args[i*2+1]` consume the arguments as consecutive pairs; a trailing
argument with no partner (odd length) is never read. -/
def pairsOf : List String → List (String × String)
  | k :: v :: rest => (k, v) :: pairsOf rest
  | _ => []

theorem pairsOf_evenTrunc (args : List String) :
    pairsOf (args.take (2 * (args.length / 2))) = pairsOf args := by
  match args with
  | [] => rfl
  | [k] => simp [pairsOf]
  | k :: v :: rest =>
    have h : 2 * ((k :: v :: rest).length / 2) = 2 * (rest.length / 2) + 2 := by
      simp only [List.length]
      omega
    rw [h]
    simp only [List.take, pairsOf]
    rw [pairsOf_evenTrunc rest]

/-- The body of `ReqBuilder.Q`'s loop, processing the key/value pairs
left-to-right while tracking (in `seen`, the local `keys` map) which keys
this call has already touched: the first occurrence of a key in this call
does `b.query.Set`, every later occurrence does `b.query.Add`. -/
def qLoop : List (String × String) → Values → (String → Bool) → Values
  | [], q, _ => q
  | (k, v) :: rest, q, seen =>
    qLoop rest (if seen k then vadd q k v else vset q k v)
      (fun k₁ => k₁ = k || seen k₁)

/-- The values paired with key `k` among the pairs of one call, in order. -/
def callVals (ps : List (String × String)) (k : String) : List String :=
  (ps.filter (fun p => p.1 = k)).map Prod.snd

/-- Whether key `k` occurs among the pairs of one call. -/
def callHasKey (ps : List (String × String)) (k : String) : Bool :=
  ps.any (fun p => p.1 = k)

theorem qLoop_vget (ps : List (String × String)) (q : Values) (seen : String → Bool)
    (k : String) :
    vget (qLoop ps q seen) k =
      if seen k then vget q k ++ callVals ps k
      else if callHasKey ps k then callVals ps k
      else vget q k := by
  induction ps generalizing q seen with
  | nil => simp [qLoop, callVals, callHasKey]
  | cons p rest ih =>
    obtain ⟨a, v⟩ := p
    simp only [qLoop]
    rw [ih]
    by_cases hak : a = k
    · subst hak
      by_cases hs : seen a
      · simp [hs, callVals, callHasKey, vget_vadd_self]
      · simp [hs, callVals, callHasKey, vget_vset_self]
    · have hka : k ≠ a := Ne.symm hak
      have h₁ : vget (if seen a then vadd q a v else vset q a v) k = vget q k := by
        by_cases hsa : seen a
        · simp [hsa, vget_vadd_ne _ _ _ _ hka]
        · simp [hsa, vget_vset_ne _ _ _ _ hka]
      have h₂ : callVals ((a, v) :: rest) k = callVals rest k := by
        simp [callVals, hak]
      have h₃ : callHasKey ((a, v) :: rest) k = callHasKey rest k := by
        simp [callHasKey, hak]
      simp [h₁, h₂, h₃, hka]

/-! ## http.Header (net/textproto canonical keys) -/

/-- Valid MIME header token byte (`validHeaderFieldByte` in net/textproto). -/
def isTokenChar (c : Char) : Bool :=
  let n := c.toNat
  (48 ≤ n && n ≤ 57) || (65 ≤ n && n ≤ 90) || (97 ≤ n && n ≤ 122) ||
  [33, 35, 36, 37, 38, 39, 42, 43, 45, 46, 94, 95, 96, 124, 126].contains n

/-- ASCII upper-casing of a single character. -/
def toUpperA (c : Char) : Char :=
  if 97 ≤ c.toNat && c.toNat ≤ 122 then Char.ofNat (c.toNat - 32) else c

/-- ASCII lower-casing of a single character. -/
def toLowerA (c : Char) : Char :=
  if 65 ≤ c.toNat && c.toNat ≤ 90 then Char.ofNat (c.toNat + 32) else c

/-- The case-mapping loop of `textproto.CanonicalMIMEHeaderKey`: upper-case
at the start and after each hyphen, lower-case elsewhere. -/
def canonicalLoop : Bool → List Char → List Char
  | _, [] => []
  | upper, c :: rest =>
    let c := if upper then toUpperA c else toLowerA c
    c :: canonicalLoop (c = '-') rest

/-- `textproto.CanonicalMIMEHeaderKey`: returns the key unchanged when it
holds any non-token byte, else canonicalizes its case. -/
def canonicalMIMEHeaderKey (s : String) : String :=
  if s.toList.all isTokenChar then String.mk (canonicalLoop true s.toList) else s

/-- `http.Header.Set`: stores `[]string{value}` under the canonical key. -/
def hset (h : Values) (k v : String) : Values :=
  vset h (canonicalMIMEHeaderKey k) v

/-- `http.Header.Get`: the first value under the canonical key, or `""`. -/
def hget (h : Values) (k : String) : String :=
  match vget h (canonicalMIMEHeaderKey k) with
  | [] => ""
  | v :: _ => v

/-! ## url.Values.Encode -/

/-- Insertion step of sorting the keys of a `url.Values` (Go sorts the map
keys before encoding). -/
def insertByKey (p : String × List String) : Values → Values
  | [] => [p]
  | q :: rest => if p.1 ≤ q.1 then p :: q :: rest else q :: insertByKey p rest

/-- The key-sorted entries of a `url.Values`. -/
def sortByKey (q : Values) : Values :=
  q.foldr insertByKey []

/-- Upper-case hexadecimal digit character (Go uses `"0123456789ABCDEF"`). -/
def hexUpper (d : Nat) : Char :=
  Char.ofNat (if d < 10 then 48 + d else 55 + d)

/-- `url.QueryEscape` on one character: alphanumerics and `-_.~` are kept,
space becomes `+`, anything else is percent-encoded.  (Go escapes the bytes
of the UTF-8 encoding; this model covers the ASCII range, the only range
the package itself ever produces.) -/
def queryEscapeChar (c : Char) : List Char :=
  let n := c.toNat
  if n = 32 then [Char.ofNat 43]
  else if (48 ≤ n && n ≤ 57) || (65 ≤ n && n ≤ 90) || (97 ≤ n && n ≤ 122)
      || n = 45 || n = 95 || n = 46 || n = 126 then [c]
  else [Char.ofNat 37, hexUpper (n / 16), hexUpper (n % 16)]

/-- `url.QueryEscape`. -/
def queryEscape (s : String) : String :=
  String.mk (s.toList.map queryEscapeChar).flatten

/-- `url.Values.Encode`: keys sorted, each key/value pair written as
`escape(k)=escape(v)`, pairs joined by `&`. -/
def Values.encode (q : Values) : String :=
  String.intercalate "&"
    ((sortByKey q).map
      (fun p => p.2.map (fun v => queryEscape p.1 ++ "=" ++ queryEscape v))).flatten

/-! ## Errors and the error sink

Go `error` values reaching the sink are modelled structurally: each
`fmt.Errorf` format in the source becomes one constructor carrying exactly
the data interpolated into the message.  The `onError` callback itself is
externalized: "reporting e to the sink" is modelled by appending `e` to an
error list. -/

/-- A `*url.Error` as returned by `http.Client.Do`, which (per net/http)
wraps every transport failure together with the request method and URL. -/
structure UrlError where
  method : String
  url : String
  cause : String
  deriving DecidableEq, Repr

inductive HErr where
  /-- An opaque Go error value forwarded to the sink unchanged
  (`url.Parse` failure, `http.NewRequestWithContext` failure,
  `json.Marshal` failure, `io.ReadAll` failure, decode failures). -/
  | goErr (msg : String)
  /-- A transport error from `client.Do` forwarded to the sink unchanged. -/
  | transport (e : UrlError)
  /-- `fmt.Errorf("expected status %v got %d: %s", ...)` in `Status`. -/
  | statusMismatch (expected : List Int) (got : Int) (excerpt : Bytes)
  /-- `fmt.Errorf("Content-Type is not application/json, got %s: %s", ...)`. -/
  | ctNotJSON (got : String) (excerpt : Bytes)
  /-- `fmt.Errorf("%s %s: %s", r.req.Method, r.req.URL.String(), err)`:
  the wrapping applied by `Response.err` to every response-side report. -/
  | wrap (method : String) (url : String) (e : HErr)
  deriving DecidableEq, Repr

/-! ## Request builder -/

/-- The value held in the builder's `body` field (`io.Reader`): either an
in-memory byte reader (`bytes.NewReader` / `strings.NewReader`) or the read
end of the `io.Pipe` installed by `File`. -/
inductive BodyReader where
  | bytes (bs : Bytes)
  | pipeReadEnd
  deriving DecidableEq, Repr

/-- The structured URL produced by `url.Parse` (only the pieces this
package touches): an opaque remainder `addr` plus the parsed query
component (`u.Query()` / `u.RawQuery`). -/
structure URLv where
  addr : String
  query : Values
  deriving DecidableEq, Repr

/-- `u.String()`: the opaque part with the encoded query appended when the
query is nonempty (`RawQuery` handling of `url.URL.String`). -/
def URLv.render (u : URLv) : String :=
  if Values.encode u.query = "" then u.addr
  else u.addr ++ "?" ++ Values.encode u.query

/-- The `*http.Request` built by `http.NewRequestWithContext` plus the
fields `Do` mutates afterwards (`Header`, `Host`).  `ctx` is the attached
`context.Context`, with `0` standing for `context.Background()`. -/
structure Request where
  method : String
  url : URLv
  body : Option BodyReader
  ctx : Nat := 0
  headers : Values := []
  host : String := ""
  deriving DecidableEq, Repr

/-- The model of `*ReqBuilder`.  The `client` (`*http.Client`) is passed in
at `Do` time as explicit state; the `onError` sink is modelled by the
`errs` accumulator holding everything reported so far; `beforeRequest` is
the optional request-substituting hook of `BeforeWithRequest`;
`afterRequest` records whether an after-hook is installed (its invocation
is reported in `Do`'s result, the hook being a caller-side observer). -/
structure ReqBuilder where
  baseURL : String
  url : String := ""
  method : String := ""
  query : Values := []
  headers : Values := []
  noFollow : Bool := false
  body : Option BodyReader := none
  beforeRequest : Option (Request → Request) := none
  afterRequest : Bool := false
  context : Option Nat := none
  errs : List HErr := []

/-- `NewReqBuilder`: fresh builder with empty query and header maps (the
`client` and `onError` arguments are externalized as described above). -/
def NewReqBuilder (baseURL : String) : ReqBuilder :=
  { baseURL := baseURL }

namespace ReqBuilder

/-- `Method`: records the method and the path. -/
def Method (b : ReqBuilder) (method url : String) : ReqBuilder :=
  { b with method := method, url := url }

def GET (b : ReqBuilder) (url : String) : ReqBuilder := b.Method "GET" url

def POST (b : ReqBuilder) (url : String) : ReqBuilder := b.Method "POST" url

def PUT (b : ReqBuilder) (url : String) : ReqBuilder := b.Method "PUT" url

def DELETE (b : ReqBuilder) (url : String) : ReqBuilder := b.Method "DELETE" url

/-- `NoFollow`: disables redirect following for this builder's requests. -/
def NoFollow (b : ReqBuilder) : ReqBuilder :=
  { b with noFollow := true }

/-- `Q`: consumes alternating key/value arguments, tracking in a per-call
`keys` set which keys this call has already written: first occurrence
within the call does `query.Set`, later occurrences do `query.Add`. -/
def Q (b : ReqBuilder) (args : List String) : ReqBuilder :=
  { b with query := qLoop (pairsOf args) b.query (fun _ => false) }

/-- `Header`: consumes alternating key/value arguments, each doing
`headers.Set` (single-valued overwrite). -/
def Header (b : ReqBuilder) (args : List String) : ReqBuilder :=
  { b with headers := (pairsOf args).foldl (fun h p => hset h p.1 p.2) b.headers }

/-- `Auth`: sets the `Authorization` header. -/
def Auth (b : ReqBuilder) (auth : String) : ReqBuilder :=
  b.Header ["Authorization", auth]

/-- `Bearer`. -/
def Bearer (b : ReqBuilder) (bearer : String) : ReqBuilder :=
  b.Auth ("Bearer " ++ bearer)

/-- `Body`: installs the raw body reader. -/
def Body (b : ReqBuilder) (reader : BodyReader) : ReqBuilder :=
  { b with body := some reader }

/-- `Form`: URL-encodes the pairs into a fresh `url.Values` (plain `Set`,
so a repeated key keeps only its last value), sets the form content type
and installs the encoded text as the body. -/
def Form (b : ReqBuilder) (args : List String) : ReqBuilder :=
  let q := (pairsOf args).foldl (fun q p => vset q p.1 p.2) ([] : Values)
  let b := b.Header ["Content-Type", "application/x-www-form-urlencoded"]
  b.Body (.bytes ((Values.encode q).toUTF8.toList.map UInt8.toNat))

/-- `JSON`: sets the JSON content type, then serializes the value.
`json.Marshal` is the external codec, so its outcome is the argument
`marshal`; Go returns a nil byte slice alongside the error, and the source
reports the error and still installs `bytes.NewReader(jsonBytes)` — i.e. a
reader over the empty byte slice — as the body. -/
def JSON (b : ReqBuilder) (marshal : Except String Bytes) : ReqBuilder :=
  let b := b.Header ["Content-Type", "application/json"]
  let jsonBytes : Bytes := match marshal with | .ok bs => bs | .error _ => []
  let b : ReqBuilder := match marshal with
    | .error e => { b with errs := b.errs ++ [HErr.goErr e] }
    | .ok _ => b
  b.Body (.bytes jsonBytes)

/-- `File` (synchronous part): sets the multipart content type derived
from the writer's `boundary` and installs the pipe's read end as the body.
The concurrent producer goroutine is modelled separately by
`fileProducer`. -/
def File (b : ReqBuilder) (boundary : String) : ReqBuilder :=
  let b := b.Header ["Content-Type", "multipart/form-data; boundary=" ++ boundary]
  b.Body .pipeReadEnd

/-- `BeforeWithRequest`: installs the request-substituting before-hook. -/
def BeforeWithRequest (b : ReqBuilder) (f : Request → Request) : ReqBuilder :=
  { b with beforeRequest := some f }

/-- `AfterRequest`: installs the after-hook (modelled as a flag; the
arguments the hook receives are reported by `Do`). -/
def AfterRequest (b : ReqBuilder) : ReqBuilder :=
  { b with afterRequest := true }

/-- `Context`: attaches the cancellation context. -/
def Context (b : ReqBuilder) (ctx : Nat) : ReqBuilder :=
  { b with context := some ctx }

end ReqBuilder

/-! ## Multipart producer goroutine (`File`) -/

/-- Outcome of the producer goroutine for the pipe's write end: `w.Close()`
(clean EOF for the consumer) or `w.CloseWithError(err)`. -/
inductive CloseOutcome where
  | normal
  | withError (e : String)
  deriving DecidableEq, Repr

/-- The `for k, v := range extra { err = writer.WriteField(k, v); ... }`
loop: runs the `WriteField` calls in sequence and stops at the first
failure.  Each list entry is the outcome of one `WriteField` call. -/
def firstErr : List (Option String) → Option String
  | [] => none
  | none :: rest => firstErr rest
  | some e :: _ => some e

/-- The producer goroutine spawned by `File`, as a function of the
outcomes of its external I/O calls (`writer.WriteField` per extra field,
`writer.CreateFormFile`, `io.Copy` from the content stream): on the first
failure it calls `w.CloseWithError(err)` and returns, and the deferred
`if err == nil { w.Close() }` then does nothing; only when every step
succeeded does the deferred handler close the write end normally. -/
def fileProducer (fieldResults : List (Option String))
    (createRes copyRes : Option String) : CloseOutcome :=
  match firstErr fieldResults with
  | some e => .withError e
  | none =>
    match createRes with
    | some e => .withError e
    | none =>
      match copyRes with
      | some e => .withError e
      | none => .normal

/-- Modelled from the documented semantics of `io.Pipe` (external
collaborator): after `w.Close()` the read end reports clean EOF, after
`w.CloseWithError(err)` every read on the read end reports `err`.  This is
what the transport sees when it drains the request body. -/
def pipeConsumerRead : CloseOutcome → Except String Unit
  | .normal => .ok ()
  | .withError e => .error e

/-! ## Execution (`Do`) -/

/-- The transport-wide redirect policy slot `http.Client.CheckRedirect`:
`nilPolicy` is the nil default (follow up to 10 redirects),
`useLastResponse` is the closure `Do` installs under `noFollow` (returns
`http.ErrUseLastResponse`), `custom i` is any caller-installed policy. -/
inductive RedirectPolicy where
  | nilPolicy
  | useLastResponse
  | custom (id : Nat)
  deriving DecidableEq, Repr

/-- The shared mutable `*http.Client` state this package touches. -/
structure Client where
  checkRedirect : RedirectPolicy
  deriving DecidableEq, Repr

deriving instance DecidableEq for Except

/-- The raw `*http.Response` handed back by the transport: status code,
headers, the outcome of draining `res.Body` with `io.ReadAll`, and
`res.Request.URL` (the URL actually reached, post-redirect). -/
structure RawResp where
  statusCode : Int
  headers : Values := []
  readAll : Except String Bytes
  finalURL : String := ""
  deriving DecidableEq, Repr

/-- Outcomes of the external calls `Do` makes, passed in as oracles:
`url.Parse(b.baseURL + b.url)`, the error side of
`http.NewRequestWithContext`, and the transport dispatch
`b.client.Do(req)` (error side carries only the underlying cause; see
`clientDo` for the `*url.Error` wrapping). -/
structure DoOracles where
  parse : Except String URLv
  newRequestErr : Option String := none
  dispatch : Except String RawResp
  deriving Repr

/-- Modelled from net/http's documented contract: any failure of
`http.Client.Do` is returned as a `*url.Error`, which carries the request
method (its `Op`, a case variant of the method) and the request URL
alongside the underlying cause. -/
def clientDo (req : Request) (dispatch : Except String RawResp) :
    Except UrlError RawResp :=
  match dispatch with
  | .ok r => .ok r
  | .error cause =>
    .error { method := req.method, url := req.url.render, cause := cause }

/-- The merge step of `Do`: `if len(b.query) > 0`, add every accumulated
builder query value into the parsed URL's query (`q.Add(k, v)` — additive,
both the URL's own parameters and the builder's survive) and re-encode. -/
def ReqBuilder.resolvedURL (b : ReqBuilder) (u : URLv) : URLv :=
  if b.query.isEmpty then u
  else
    { u with
      query := b.query.foldl (fun q p => p.2.foldl (fun q v => vadd q p.1 v) q)
        u.query }

/-- `http.Header.Add`: appends under the canonical key. -/
def hadd (h : Values) (k v : String) : Values :=
  vadd h (canonicalMIMEHeaderKey k) v

/-- The request as constructed in `Do` before the hooks: built by
`http.NewRequestWithContext` from the method, resolved URL, body and
context, then every accumulated header value is `Add`ed, then an explicit
`Host` header overrides the request's host field. -/
def ReqBuilder.builtRequest (b : ReqBuilder) (u : URLv) : Request :=
  let req : Request :=
    { method := b.method, url := b.resolvedURL u, body := b.body
      ctx := b.context.getD 0 }
  let req :=
    { req with
      headers := b.headers.foldl (fun h p => p.2.foldl (fun h v => hadd h p.1 v) h) [] }
  if hget b.headers "Host" ≠ "" then { req with host := hget b.headers "Host" }
  else req

/-- The request actually dispatched: the built request, substituted by the
before-hook when one is installed. -/
def ReqBuilder.finalRequest (b : ReqBuilder) (u : URLv) : Request :=
  match b.beforeRequest with
  | some f => f (b.builtRequest u)
  | none => b.builtRequest u

/-- The model of `*Response` after `NewResponse` buffered the body:
`reqMethod`/`reqURL` come from the originating request (`r.req`) and are
used only by `Response.err` to prefix reported messages. -/
structure Response where
  statusCode : Int
  headers : Values
  Body : Bytes
  reqMethod : String
  reqURL : String
  finalURL : String
  deriving DecidableEq, Repr

/-- `NewResponse`: drains `res.Body` once (closing it); a read failure is
reported and nothing usable is returned, otherwise the wrapper holds the
fully buffered bytes. -/
def NewResponse (res : RawResp) (req : Request) : Option Response × List HErr :=
  match res.readAll with
  | .error e => (none, [HErr.goErr e])
  | .ok body =>
    (some { statusCode := res.statusCode, headers := res.headers, Body := body
            reqMethod := req.method, reqURL := req.url.render
            finalURL := res.finalURL }, [])

/-- Everything observable about one `Do` call: the returned wrapper (or
nothing usable), the client state after the call, the errors reported to
the sink during the call, the arguments the after-hook was invoked with
(`none` when no hook is installed or dispatch was never reached), and the
`CheckRedirect` value in effect at the moment of dispatch (`none` when
dispatch was never reached). -/
structure DoResult where
  response : Option Response
  client : Client
  errs : List HErr
  afterCall : Option (Request × Option RawResp × Option UrlError)
  dispatchPolicy : Option RedirectPolicy

/-- `Do`: parse the URL (report and abort on failure), merge the query,
default the context, build the request (report and abort on construction
failure), apply headers and `Host`, save `client.CheckRedirect`, install
the no-follow policy when requested, run the before-hook, dispatch, run
the after-hook with `(req, res, err)` whatever the outcome, restore
`client.CheckRedirect` unconditionally, then either report the transport
error and return nothing usable, or build the response wrapper. -/
def ReqBuilder.Do (b : ReqBuilder) (c : Client) (o : DoOracles) : DoResult :=
  match o.parse with
  | .error e => ⟨none, c, [HErr.goErr e], none, none⟩
  | .ok u =>
    match o.newRequestErr with
    | some e => ⟨none, c, [HErr.goErr e], none, none⟩
    | none =>
      let req := b.finalRequest u
      let oldCheckRedirect := c.checkRedirect
      let c₁ := if b.noFollow then { c with checkRedirect := .useLastResponse } else c
      let dres := clientDo req o.dispatch
      let afterCall :=
        if b.afterRequest then
          some (req, dres.toOption,
            match dres with | .error e => some e | .ok _ => none)
        else none
      let dispatchPolicy := some c₁.checkRedirect
      let c₂ := { c₁ with checkRedirect := oldCheckRedirect }
      match dres with
      | .error e => ⟨none, c₂, [HErr.transport e], afterCall, dispatchPolicy⟩
      | .ok res =>
        ⟨(NewResponse res req).1, c₂, (NewResponse res req).2, afterCall,
          dispatchPolicy⟩

/-! ## Response wrapper operations

Each assertion returns the wrapper itself (first component) for chaining
and the list of errors it reported to the sink (second component). -/

namespace Response

/-- `Response.err`: every response-side report is wrapped as
`fmt.Errorf("%s %s: %s", r.req.Method, r.req.URL.String(), err)`. -/
def err (r : Response) (e : HErr) : HErr :=
  HErr.wrap r.reqMethod r.reqURL e

/-- `bodyExcerpt`: the first 100 bytes of the buffered body followed by
`"..."` when the body holds more than 100 bytes, else the whole body
(`len` and slicing on a Go `[]byte` count bytes). -/
def bodyExcerpt (r : Response) : Bytes :=
  if r.Body.length > 100 then r.Body.take 100 ++ [46, 46, 46] else r.Body

/-- `Status`: with a non-empty expectation list, scans it for the actual
status code and reports one `expected status ... got ...` error when no
entry matches; an empty list checks nothing.  Always returns the wrapper. -/
def Status (r : Response) (statuses : List Int) : Response × List HErr :=
  if statuses.length > 0 then
    if statuses.foldl (fun ok status => ok || (r.statusCode = status)) false then
      (r, [])
    else (r, [r.err (.statusMismatch statuses r.statusCode r.bodyExcerpt)])
  else (r, [])

/-- `Response.JSON`: reports a mismatch when the Content-Type does not
start with `application/json` but still attempts the decode; the
`json.Unmarshal` codec is external, so its outcome on the buffered body is
the `unmarshal` argument.  A decode failure is reported and yields nothing
usable; success yields the populated target even after a content-type
mismatch was reported. -/
def JSON {α : Type} (r : Response) (unmarshal : Except String α) :
    Option α × List HErr :=
  let contentType := hget r.headers "Content-Type"
  let ctErrs : List HErr :=
    if contentType.startsWith "application/json" then []
    else [r.err (.ctNotJSON contentType r.bodyExcerpt)]
  match unmarshal with
  | .error e => (none, ctErrs ++ [r.err (.goErr e)])
  | .ok a => (some a, ctErrs)

/-- `BodyStr`: the buffered body as text (a Go string is its bytes). -/
def BodyStr (r : Response) : Bytes :=
  r.Body

end Response

/-! ## Helper lemmas -/

theorem hget_hset_self (h : Values) (k v : String) : hget (hset h k v) k = v := by
  unfold hget hset
  rw [vget_vset_self]

theorem firstErr_eq_none (l : List (Option String)) :
    firstErr l = none ↔ ∀ r ∈ l, r = none := by
  induction l with
  | nil => simp [firstErr]
  | cons x rest ih =>
    cases x with
    | none => simp [firstErr, ih]
    | some e => simp [firstErr]

theorem do_client_eq (b : ReqBuilder) (c : Client) (o : DoOracles) :
    (b.Do c o).client = c := by
  obtain ⟨parse, nre, disp⟩ := o
  cases parse with
  | error e => rfl
  | ok u =>
    cases nre with
    | some e => rfl
    | none =>
      cases disp with
      | error cause => rfl
      | ok res => rfl

theorem do_dispatchPolicy_eq (b : ReqBuilder) (c : Client) (o : DoOracles) :
    (b.Do c o).dispatchPolicy = none
    ∨ (b.Do c o).dispatchPolicy =
        some (if b.noFollow then .useLastResponse else c.checkRedirect) := by
  obtain ⟨parse, nre, disp⟩ := o
  cases parse with
  | error e => exact Or.inl rfl
  | ok u =>
    cases nre with
    | some e => exact Or.inl rfl
    | none =>
      refine Or.inr ?_
      cases disp with
      | error cause =>
        by_cases hnf : b.noFollow <;> simp [ReqBuilder.Do, clientDo, hnf]
      | ok res =>
        by_cases hnf : b.noFollow <;> simp [ReqBuilder.Do, clientDo, hnf]

theorem do_dispatch_error (b : ReqBuilder) (c : Client) (u : URLv) (cause : String) :
    (b.Do c ⟨.ok u, none, .error cause⟩).response = none
    ∧ (b.Do c ⟨.ok u, none, .error cause⟩).errs =
        [HErr.transport
          { method := (b.finalRequest u).method
            url := (b.finalRequest u).url.render, cause := cause }]
    ∧ (b.afterRequest = true →
        (b.Do c ⟨.ok u, none, .error cause⟩).afterCall =
          some (b.finalRequest u, none,
            some { method := (b.finalRequest u).method
                   url := (b.finalRequest u).url.render, cause := cause })) := by
  refine ⟨rfl, rfl, ?_⟩
  intro ha
  simp [ReqBuilder.Do, clientDo, ha, Except.toOption]

/-! ## Claim theorems -/

/-- Claim C1: within a single `Q` call, processed left-to-right, the first
occurrence of a key replaces whatever the builder's query mapping held for
that key and every later occurrence in the same call appends a further
value — so after the call the key maps exactly to that call's values for
it, in order, while untouched keys keep their prior values; key tracking is
per call, so `Q("a","1","a","2")` yields `a = ["1","2"]` and a subsequent
independent `Q("a","3")` yields `a = ["3"]`, not `["1","2","3"]`. -/
theorem c1_addQuery_tiebreak :
    (∀ (b : ReqBuilder) (args : List String) (k : String),
      vget (b.Q args).query k =
        if callHasKey (pairsOf args) k then callVals (pairsOf args) k
        else vget b.query k)
    ∧ (∀ b : ReqBuilder,
        vget (b.Q ["a", "1", "a", "2"]).query "a" = ["1", "2"]
        ∧ vget ((b.Q ["a", "1", "a", "2"]).Q ["a", "3"]).query "a" = ["3"]) := by
  have hmain : ∀ (b : ReqBuilder) (args : List String) (k : String),
      vget (b.Q args).query k =
        if callHasKey (pairsOf args) k then callVals (pairsOf args) k
        else vget b.query k := by
    intro b args k
    show vget (qLoop (pairsOf args) b.query (fun _ => false)) k = _
    rw [qLoop_vget]
    simp
  refine ⟨hmain, fun b => ⟨?_, ?_⟩⟩
  · rw [hmain]
    simp [pairsOf, callHasKey, callVals]
  · rw [hmain]
    simp [pairsOf, callHasKey, callVals]

/-- Claim C9: `Q`, `Header` and `Form` all consume only the first
`floor(n/2)` pairs of their argument list — a trailing odd key is ignored,
the call is indistinguishable from the call on the even-length truncation —
and none of them ever reports to the error sink. -/
theorem c9_odd_args_ignored (b : ReqBuilder) (args : List String) :
    (b.Q args = b.Q (args.take (2 * (args.length / 2)))
      ∧ (b.Q args).errs = b.errs)
    ∧ (b.Header args = b.Header (args.take (2 * (args.length / 2)))
      ∧ (b.Header args).errs = b.errs)
    ∧ (b.Form args = b.Form (args.take (2 * (args.length / 2)))
      ∧ (b.Form args).errs = b.errs) := by
  have hp := pairsOf_evenTrunc args
  refine ⟨⟨?_, rfl⟩, ⟨?_, rfl⟩, ⟨?_, rfl⟩⟩ <;>
    simp [ReqBuilder.Q, ReqBuilder.Header, ReqBuilder.Form, ReqBuilder.Body, hp]

/-- Claim C10: `JSON` sets the `Content-Type` header to `application/json`
unconditionally — before serialization is attempted, overwriting any prior
value — so it is present whatever the marshal outcome. -/
theorem c10_json_content_type (b : ReqBuilder) (marshal : Except String Bytes) :
    hget (b.JSON marshal).headers "Content-Type" = "application/json" := by
  cases marshal <;>
    simp [ReqBuilder.JSON, ReqBuilder.Header, ReqBuilder.Body, pairsOf,
      hget_hset_self]

/-- Claim C2 (counterexample): on a marshal failure the builder's body is
not left unset — `JSON` still runs `b.Body(bytes.NewReader(jsonBytes))`
with the nil byte slice `json.Marshal` returned, so the body field holds a
reader over zero bytes. -/
theorem c2_counterexample :
    ((NewReqBuilder "http://h").JSON (.error "marshal failed")).body ≠ none
    ∧ ((NewReqBuilder "http://h").JSON (.error "marshal failed")).body =
        some (.bytes []) := by
  constructor
  · intro h
    simp [NewReqBuilder, ReqBuilder.JSON, ReqBuilder.Header, ReqBuilder.Body] at h
  · rfl

/-- Claim C2 (amended): if serialization fails, the error is reported to
the sink exactly once and the body is set to a reader over the empty byte
slice (so a subsequent execute still reaches dispatch, with an effectively
empty body, rather than aborting); if serialization succeeds the body is
the serialized bytes and nothing is reported.  Either way the returned
builder keeps the chain callable. -/
theorem c2_json_marshal_failure (b : ReqBuilder) (e : String) (bs : Bytes) :
    ((b.JSON (.error e)).errs = b.errs ++ [HErr.goErr e]
      ∧ (b.JSON (.error e)).body = some (.bytes []))
    ∧ ((b.JSON (.ok bs)).errs = b.errs
      ∧ (b.JSON (.ok bs)).body = some (.bytes bs))
    ∧ (∀ (c : Client) (o : DoOracles) (u : URLv),
        o.parse = .ok u → o.newRequestErr = none →
        ((b.JSON (.error e)).Do c o).dispatchPolicy ≠ none) := by
  refine ⟨⟨rfl, rfl⟩, ⟨rfl, rfl⟩, ?_⟩
  intro c o u hp hn
  obtain ⟨parse, nre, disp⟩ := o
  cases hp
  cases hn
  cases disp with
  | error cause => simp [ReqBuilder.Do, clientDo]
  | ok res => simp [ReqBuilder.Do, clientDo]

/-- Claim C2 (witness): a concrete failed-marshal chain still reaches
transport dispatch. -/
theorem c2_json_marshal_failure_witness :
    (⟨Except.ok ⟨"http://h", []⟩, none, Except.error "refused"⟩ :
        DoOracles).parse = Except.ok ⟨"http://h", []⟩
    ∧ (((NewReqBuilder "http://h").JSON (.error "marshal failed")).Do
        ⟨.nilPolicy⟩
        ⟨Except.ok ⟨"http://h", []⟩, none, Except.error "refused"⟩).dispatchPolicy
        ≠ none :=
  ⟨rfl,
    (c2_json_marshal_failure (NewReqBuilder "http://h") "marshal failed" []).2.2
      ⟨.nilPolicy⟩ ⟨Except.ok ⟨"http://h", []⟩, none, Except.error "refused"⟩
      ⟨"http://h", []⟩ rfl rfl⟩

/-- Claim C3: `Do` saves `client.CheckRedirect` before mutating it and
restores exactly the prior value after dispatch whatever the outcome (the
final client state always equals the initial one); under `noFollow` the
policy in effect at dispatch is the stop-following one, and a subsequent
`Do` on the same client without `noFollow` dispatches under the original
policy — nothing leaks. -/
theorem c3_redirect_policy_restored (b : ReqBuilder) (c : Client) (o : DoOracles) :
    (b.Do c o).client = c
    ∧ (b.noFollow = true →
        ∀ p, (b.Do c o).dispatchPolicy = some p → p = .useLastResponse)
    ∧ (∀ (b₂ : ReqBuilder) (o₂ : DoOracles), b₂.noFollow = false →
        ∀ p, (b₂.Do (b.Do c o).client o₂).dispatchPolicy = some p →
          p = c.checkRedirect) := by
  refine ⟨do_client_eq b c o, ?_, ?_⟩
  · intro hnf p hp
    rcases do_dispatchPolicy_eq b c o with h | h
    · rw [h] at hp
      cases hp
    · rw [h] at hp
      rw [hnf] at hp
      simpa using hp.symm
  · intro b₂ o₂ hnf p hp
    rw [do_client_eq b c o] at hp
    rcases do_dispatchPolicy_eq b₂ c o₂ with h | h
    · rw [h] at hp
      cases hp
    · rw [h] at hp
      rw [hnf] at hp
      simpa using hp.symm

/-- Claim C3 (witness): with `noFollow` set and a failing dispatch, the
client's custom redirect policy is restored and a follow-up plain `Do`
dispatches under it. -/
theorem c3_redirect_policy_restored_witness :
    ((NewReqBuilder "h").NoFollow.Do ⟨.custom 7⟩
        ⟨Except.ok ⟨"h", []⟩, none, Except.error "refused"⟩).client = ⟨.custom 7⟩
    ∧ (NewReqBuilder "h").NoFollow.noFollow = true
    ∧ (∀ p, ((NewReqBuilder "h").NoFollow.Do ⟨.custom 7⟩
        ⟨Except.ok ⟨"h", []⟩, none, Except.error "refused"⟩).dispatchPolicy = some p →
          p = .useLastResponse) :=
  ⟨(c3_redirect_policy_restored (NewReqBuilder "h").NoFollow ⟨.custom 7⟩
      ⟨Except.ok ⟨"h", []⟩, none, Except.error "refused"⟩).1,
    rfl,
    (c3_redirect_policy_restored (NewReqBuilder "h").NoFollow ⟨.custom 7⟩
      ⟨Except.ok ⟨"h", []⟩, none, Except.error "refused"⟩).2.1 rfl⟩

/-- Claim C8: when transport dispatch fails, the after-hook (if installed)
still runs with the dispatched request and the error, the transport error
is reported to the sink carrying the request method and URL (`Client.Do`
returns a `*url.Error` wrapping both), and the call returns nothing
usable. -/
theorem c8_transport_error_path (b : ReqBuilder) (c : Client) (o : DoOracles)
    (u : URLv) (cause : String)
    (hp : o.parse = .ok u) (hn : o.newRequestErr = none)
    (hd : o.dispatch = .error cause) :
    (b.Do c o).response = none
    ∧ (b.Do c o).errs =
        [HErr.transport
          { method := (b.finalRequest u).method
            url := (b.finalRequest u).url.render, cause := cause }]
    ∧ (b.afterRequest = true →
        (b.Do c o).afterCall =
          some (b.finalRequest u, none,
            some { method := (b.finalRequest u).method
                   url := (b.finalRequest u).url.render, cause := cause })) := by
  obtain ⟨parse, nre, disp⟩ := o
  cases hp
  cases hn
  cases hd
  exact do_dispatch_error b c u cause

/-- Claim C8 (witness): a concrete failing dispatch with an after-hook
installed. -/
theorem c8_transport_error_path_witness :
    (((NewReqBuilder "http://h").GET "/p").AfterRequest.Do ⟨.nilPolicy⟩
        ⟨Except.ok ⟨"http://h/p", []⟩, none, Except.error "refused"⟩).response = none
    ∧ (((NewReqBuilder "http://h").GET "/p").AfterRequest.Do ⟨.nilPolicy⟩
        ⟨Except.ok ⟨"http://h/p", []⟩, none, Except.error "refused"⟩).errs =
        [HErr.transport { method := "GET", url := "http://h/p", cause := "refused" }]
    ∧ (((NewReqBuilder "http://h").GET "/p").AfterRequest.Do ⟨.nilPolicy⟩
        ⟨Except.ok ⟨"http://h/p", []⟩, none, Except.error "refused"⟩).afterCall =
        some (((NewReqBuilder "http://h").GET "/p").AfterRequest.finalRequest
            ⟨"http://h/p", []⟩, none,
          some { method := "GET", url := "http://h/p", cause := "refused" }) := by
  have h := c8_transport_error_path ((NewReqBuilder "http://h").GET "/p").AfterRequest
    ⟨.nilPolicy⟩ ⟨Except.ok ⟨"http://h/p", []⟩, none, Except.error "refused"⟩
    ⟨"http://h/p", []⟩ "refused" rfl rfl rfl
  refine ⟨h.1, ?_, ?_⟩
  · rw [h.2.1]
    rfl
  · rw [h.2.2 rfl]
    rfl

/-- Claim C4: the `File` producer goroutine closes the pipe's write end
normally exactly when every extra-field write, the file-part creation and
the content copy all succeeded; any failure closes the write end with that
error (the first field-write error, the creation error, or the copy
error), so the consumer side reads that error instead of a clean EOF — in
particular a mid-copy read error reaches the transport as a body-read
error, and a dispatch failing with it is reported to the sink as a
transport error. -/
theorem c4_multipart_producer_close (fieldResults : List (Option String))
    (createRes copyRes : Option String) :
    (fileProducer fieldResults createRes copyRes = .normal ↔
      (∀ r ∈ fieldResults, r = none) ∧ createRes = none ∧ copyRes = none)
    ∧ (∀ e, firstErr fieldResults = some e →
        fileProducer fieldResults createRes copyRes = .withError e)
    ∧ (∀ e, firstErr fieldResults = none → createRes = some e →
        fileProducer fieldResults createRes copyRes = .withError e)
    ∧ (∀ e, firstErr fieldResults = none → createRes = none → copyRes = some e →
        pipeConsumerRead (fileProducer fieldResults createRes copyRes) = .error e
        ∧ ∀ (b : ReqBuilder) (c : Client) (u : URLv),
            HErr.transport
              { method := (b.finalRequest u).method
                url := (b.finalRequest u).url.render, cause := e }
              ∈ (b.Do c ⟨.ok u, none, .error e⟩).errs) := by
  refine ⟨?_, ?_, ?_, ?_⟩
  · unfold fileProducer
    rw [← firstErr_eq_none]
    rcases h : firstErr fieldResults with _ | e
    · cases createRes with
      | none =>
        cases copyRes with
        | none => simp
        | some e => simp
      | some e => simp
    · simp
  · intro e he
    simp [fileProducer, he]
  · intro e hf hc
    simp [fileProducer, hf, hc]
  · intro e hf hc hcp
    refine ⟨by simp [fileProducer, hf, hc, hcp, pipeConsumerRead], ?_⟩
    intro b c u
    rw [(do_dispatch_error b c u e).2.1]
    simp

/-- Claim C4 (witness): one extra field written successfully, file part
created, then the content stream fails mid-copy: the pipe is closed with
that error and a dispatch failing with it is reported as a transport
error. -/
theorem c4_multipart_producer_close_witness :
    firstErr [none] = none
    ∧ pipeConsumerRead (fileProducer [none] none (some "read failed")) =
        .error "read failed"
    ∧ HErr.transport { method := "GET", url := "http://h/p", cause := "read failed" }
        ∈ (((NewReqBuilder "http://h").GET "/p").Do ⟨.nilPolicy⟩
            ⟨.ok ⟨"http://h/p", []⟩, none, .error "read failed"⟩).errs := by
  have h := (c4_multipart_producer_close [none] none (some "read failed")).2.2.2
    "read failed" rfl rfl rfl
  exact ⟨rfl, h.1,
    h.2 ((NewReqBuilder "http://h").GET "/p") ⟨.nilPolicy⟩ ⟨"http://h/p", []⟩⟩

/-- Claim C5: `Response.JSON` reports a content-type mismatch when the
`Content-Type` header does not begin with `application/json` but still
attempts the decode; a successful decode yields the populated target (also
after a reported mismatch) and a failed decode is reported and yields
nothing usable.  With a matching content type and a successful decode,
nothing is reported at all. -/
theorem c5_decodeJSON {α : Type} (r : Response) (um : Except String α) :
    ((hget r.headers "Content-Type").startsWith "application/json" = false →
      r.err (.ctNotJSON (hget r.headers "Content-Type") r.bodyExcerpt)
        ∈ (r.JSON um).2)
    ∧ (∀ a, um = .ok a → (r.JSON um).1 = some a)
    ∧ (∀ e, um = .error e →
        (r.JSON um).1 = none ∧ r.err (.goErr e) ∈ (r.JSON um).2)
    ∧ ((hget r.headers "Content-Type").startsWith "application/json" = true →
        ∀ a, um = .ok a → (r.JSON um).2 = []) := by
  refine ⟨?_, ?_, ?_, ?_⟩
  · intro hct
    cases um <;> simp [Response.JSON, hct]
  · intro a ha
    cases ha
    by_cases hct : (hget r.headers "Content-Type").startsWith "application/json" <;>
      simp [Response.JSON, hct]
  · intro e he
    cases he
    by_cases hct : (hget r.headers "Content-Type").startsWith "application/json" <;>
      simp [Response.JSON, hct]
  · intro hct a ha
    cases ha
    simp [Response.JSON, hct]

/-- Claim C5 (witness): a `text/plain` response whose body decodes fine —
the mismatch is reported and the target is still populated. -/
theorem c5_decodeJSON_witness :
    (hget ({ statusCode := 200, headers := [("Content-Type", ["text/plain"])]
             Body := [55], reqMethod := "GET", reqURL := "http://h"
             finalURL := "http://h" } : Response).headers
        "Content-Type").startsWith "application/json" = false
    ∧ (({ statusCode := 200, headers := [("Content-Type", ["text/plain"])]
          Body := [55], reqMethod := "GET", reqURL := "http://h"
          finalURL := "http://h" } : Response).JSON (.ok (7 : Nat))).1 = some 7
    ∧ HErr.wrap "GET" "http://h" (.ctNotJSON "text/plain" [55])
        ∈ (({ statusCode := 200, headers := [("Content-Type", ["text/plain"])]
              Body := [55], reqMethod := "GET", reqURL := "http://h"
              finalURL := "http://h" } : Response).JSON (.ok (7 : Nat))).2 := by
  have h := c5_decodeJSON (α := Nat)
    { statusCode := 200, headers := [("Content-Type", ["text/plain"])]
      Body := [55], reqMethod := "GET", reqURL := "http://h"
      finalURL := "http://h" } (.ok 7)
  exact ⟨by decide, h.2.1 7 rfl, h.1 (by decide)⟩

/-- Claim C6: `Status` with an empty expectation list never reports; with a
non-empty list it reports exactly one error — carrying the expected list,
the actual status and the body excerpt — precisely when the actual status
matches none of the listed codes; and it always returns the wrapper itself
for chaining. -/
theorem c6_assertStatus (r : Response) (statuses : List Int) :
    (r.Status statuses).1 = r
    ∧ (statuses = [] → (r.Status statuses).2 = [])
    ∧ (r.statusCode ∈ statuses → (r.Status statuses).2 = [])
    ∧ (statuses ≠ [] → r.statusCode ∉ statuses →
        (r.Status statuses).2 =
          [r.err (.statusMismatch statuses r.statusCode r.bodyExcerpt)]) := by
  have hfold : ∀ (l : List Int) (acc : Bool),
      l.foldl (fun ok status => ok || (r.statusCode = status)) acc =
        (acc || l.any (fun status => r.statusCode = status)) := by
    intro l
    induction l with
    | nil => simp
    | cons s rest ih =>
      intro acc
      simp [List.foldl, ih, Bool.or_assoc]
  refine ⟨?_, ?_, ?_, ?_⟩
  · unfold Response.Status
    split
    · split <;> rfl
    · rfl
  · intro h
    subst h
    rfl
  · intro hmem
    have hlen : statuses.length > 0 := by
      cases statuses with
      | nil => cases hmem
      | cons a l => simp
    have hany : statuses.any (fun status => r.statusCode = status) = true := by
      simp only [List.any_eq_true]
      exact ⟨r.statusCode, hmem, by simp⟩
    simp [Response.Status, hlen, hfold, hany]
  · intro hne hnm
    have hlen : statuses.length > 0 := by
      cases statuses with
      | nil => exact absurd rfl hne
      | cons a l => simp
    have hany : statuses.any (fun status => r.statusCode = status) = false := by
      rw [Bool.eq_false_iff]
      intro h2
      rw [List.any_eq_true] at h2
      obtain ⟨x, hx, hdx⟩ := h2
      have hxx : r.statusCode = x := by simpa using hdx
      exact hnm (hxx ▸ hx)
    simp [Response.Status, hlen, hfold, hany]

/-- Claim C6 (witness): actual status 409 against `Status(200, 201)` —
exactly one report with the expected list, the 409, and the excerpt. -/
theorem c6_assertStatus_witness :
    ((409 : Int) ∉ ([200, 201] : List Int))
    ∧ (({ statusCode := 409, headers := [], Body := [65], reqMethod := "GET"
          reqURL := "http://h", finalURL := "http://h" } : Response).Status
        [200, 201]).2 =
        [HErr.wrap "GET" "http://h" (.statusMismatch [200, 201] 409 [65])] := by
  have h := (c6_assertStatus
    { statusCode := 409, headers := [], Body := [65], reqMethod := "GET"
      reqURL := "http://h", finalURL := "http://h" } [200, 201]).2.2.2
    (by decide) (by decide)
  exact ⟨by decide, h⟩

/-- The number of characters (UTF-8 runes) a byte string decodes to: every
byte except the continuation bytes `0b10xxxxxx` starts a rune.  The source
helper truncates at 100 *bytes* (`len(r.Body)` and `r.Body[:100]` on a Go
`[]byte` count bytes); this definition makes the difference statable. -/
def runeCount (bs : Bytes) : Nat :=
  (bs.filter (fun b => !(128 ≤ b && b < 192))).length

/-- A response whose body is 51 copies of the two-byte UTF-8 character
`U+00E9` (`0xC3 0xA9`): 102 bytes, 51 characters. -/
def multibyteResp : Response :=
  { statusCode := 200, headers := [], Body := (List.replicate 51 [195, 169]).flatten
    reqMethod := "GET", reqURL := "http://h", finalURL := "http://h" }

/-- Claim C7 (counterexample): a body of 51 characters (well under 100) but
102 bytes: the claim says the excerpt is the full body text with no
ellipsis, yet the source truncates after 100 bytes and appends `"..."`. -/
theorem c7_counterexample :
    runeCount multibyteResp.Body ≤ 100
    ∧ multibyteResp.bodyExcerpt ≠ multibyteResp.Body
    ∧ multibyteResp.bodyExcerpt =
        multibyteResp.Body.take 100 ++ [46, 46, 46] := by
  refine ⟨by decide, by decide, by decide⟩

/-- Claim C7 (amended): the excerpt is the full body when the body is at
most 100 *bytes* long (in particular a body of exactly 100 bytes gets no
ellipsis), and the first 100 bytes followed by the ellipsis marker `"..."`
when the body is longer than 100 bytes.  (The source counts bytes, not
characters: a multi-byte body of at most 100 characters but more than 100
bytes is still truncated.) -/
theorem c7_excerpt_boundary (r : Response) :
    (r.Body.length ≤ 100 → r.bodyExcerpt = r.Body)
    ∧ (r.Body.length > 100 →
        r.bodyExcerpt = r.Body.take 100 ++ [46, 46, 46]) := by
  constructor
  · intro h
    have h2 : ¬ r.Body.length > 100 := by omega
    simp [Response.bodyExcerpt, h2]
  · intro h
    simp [Response.bodyExcerpt, h]

/-- Claim C7 (witness): bodies of exactly 100 and of 101 bytes, at the
boundary. -/
theorem c7_excerpt_boundary_witness :
    ({ statusCode := 200, headers := [], Body := List.replicate 100 97
       reqMethod := "GET", reqURL := "http://h", finalURL := "http://h" } :
        Response).Body.length ≤ 100
    ∧ ({ statusCode := 200, headers := [], Body := List.replicate 100 97
         reqMethod := "GET", reqURL := "http://h", finalURL := "http://h" } :
        Response).bodyExcerpt = List.replicate 100 97
    ∧ ({ statusCode := 200, headers := [], Body := List.replicate 101 97
         reqMethod := "GET", reqURL := "http://h", finalURL := "http://h" } :
        Response).Body.length > 100
    ∧ ({ statusCode := 200, headers := [], Body := List.replicate 101 97
         reqMethod := "GET", reqURL := "http://h", finalURL := "http://h" } :
        Response).bodyExcerpt = List.replicate 100 97 ++ [46, 46, 46] := by
  have h100 := (c7_excerpt_boundary
    { statusCode := 200, headers := [], Body := List.replicate 100 97
      reqMethod := "GET", reqURL := "http://h", finalURL := "http://h" }).1
    (by decide)
  have h101 := (c7_excerpt_boundary
    { statusCode := 200, headers := [], Body := List.replicate 101 97
      reqMethod := "GET", reqURL := "http://h", finalURL := "http://h" }).2
    (by decide)
  refine ⟨by decide, h100, by decide, by rw [h101]; decide⟩

end HTTPTester
